import Mathlib

set_option maxRecDepth 8000

/-!
# SynthData engine — verification of the specification against the code base

The repository's core engine (schema inference, rule-based generation,
constraint post-processing, evaluation) is documented in `src/api/README.md`,
`src/api/API_TEST_CASES.md`, `src/engine/evaluation/README.md` and the engine
notes (`src/unnamed/part_000`); the Python implementation itself is not part
of the source tree given here, so the definitions below model the engine's
operations faithfully from the specification's own words and the in-repo
documentation.
-/

namespace SynthData

/-- A raw table cell: a numeric value (modelled as a rational), a string,
or a null/missing marker. -/
inductive Value where
  | num (q : ℚ)
  | str (s : String)
  | null
  deriving DecidableEq, Repr

instance : Inhabited Value := ⟨Value.null⟩

/-- A table row: one cell per column, in schema order. -/
abbrev Row := List Value

/-- A row-oriented table, as produced by the rule-based generator. -/
abbrev Table := List Row

/-! ## Declared schema (schema-only Mode B)

Modelled from the spec: §4.3 Rule-Based Generator — a user-declared schema
whose columns carry generation hints (`min`/`max` for numeric kinds, a
`values` list for categoricals, a `start` integer for identifiers) and a
top-level `seed`. -/

/-- The declared kind of one schema column, with its generation hints. -/
inductive ColKind where
  | identifier (start : Int)
  | intCol (lo hi : Int)
  | floatCol (lo hi : ℚ)
  | categorical (values : List String)
  deriving DecidableEq, Repr

/-- One declared column: a name and a kind with hints. -/
structure ColSpec where
  name : String
  kind : ColKind
  deriving DecidableEq, Repr

instance : Inhabited ColSpec := ⟨⟨"", ColKind.identifier 0⟩⟩

/-- A declared schema: a seed and an ordered list of columns. -/
structure DeclSchema where
  seed : Nat
  columns : List ColSpec
  deriving DecidableEq, Repr

/-! ## Deterministic pseudo-random stream

Modelled from the spec: §4.3 — "initialize one deterministic pseudo-random
stream from `seed`".  The exact stream is not fixed by the spec; we model it
as a standard 32-bit linear congruential generator.  Every property proved
below about the generator holds for every state of the stream, so nothing
depends on this particular choice of constants. -/

/-- Modulus of the pseudo-random stream (32-bit). -/
def rngMod : Nat := 2 ^ 32

/-- One step of the linear congruential pseudo-random stream. -/
def lcgNext (s : Nat) : Nat := (1664525 * s + 1013904223) % rngMod

/-- Generate one cell for column kind `k` at row index `i`, threading the
stream state.  Modelled from the spec: §4.3 — Identifier → `start + rowIndex`
(consumes no randomness); Integer → uniform integer in `[min,max]`;
Float → uniform value in `[min,max]`; Categorical → uniform pick from
`values`. -/
def genCell (k : ColKind) (i : Nat) (s : Nat) : Value × Nat :=
  match k with
  | .identifier start => (.num ((start + (i : Int) : Int) : ℚ), s)
  | .intCol lo hi =>
      let s' := lcgNext s
      (.num ((lo + ((s' % (hi + 1 - lo).toNat : Nat) : Int) : Int) : ℚ), s')
  | .floatCol lo hi =>
      let s' := lcgNext s
      (.num (lo + (hi - lo) * ((s' : ℚ) / (rngMod : ℚ))), s')
  | .categorical vs =>
      let s' := lcgNext s
      (.str (vs.getD (s' % vs.length) ""), s')

/-- Generate one row at row index `i`: one cell per column, in schema order,
threading the stream state. -/
def genRow (cols : List ColSpec) (i : Nat) (s : Nat) : Row × Nat :=
  match cols with
  | [] => ([], s)
  | c :: cs =>
      let (v, s') := genCell c.kind i s
      let (vs, s'') := genRow cs i s'
      (v :: vs, s'')

/-- Generate `n` rows starting at row index `i`, threading the stream
state. -/
def genRows (cols : List ColSpec) (i n : Nat) (s : Nat) : Table × Nat :=
  match n with
  | 0 => ([], s)
  | n + 1 =>
      let (r, s') := genRow cols i s
      let (rest, s'') := genRows cols (i + 1) n s'
      (r :: rest, s'')

/-- Schema validity for generation.  Modelled from the spec: §4.3 Failure —
"rejects a schema where a numeric column has `min > max`, or a categorical
column has an empty `values` list". -/
def validColSpec (c : ColSpec) : Bool :=
  match c.kind with
  | .identifier _ => true
  | .intCol lo hi => decide (lo ≤ hi)
  | .floatCol lo hi => decide (lo ≤ hi)
  | .categorical vs => !vs.isEmpty

/-- All columns of the schema are valid for generation. -/
def validSchema (sc : DeclSchema) : Bool := sc.columns.all validColSpec

/-- Rule-based generation from a declared schema.  Modelled from the spec:
§4.3 and §6 — `generateFromSchema(schema, nRows) -> table |
Error("invalid schema" | "invalid nRows")`; rejects `nRows ≤ 0` and invalid
schemas, otherwise seeds the stream from `schema.seed` and emits `nRows`
rows. -/
def generateFromSchema (sc : DeclSchema) (nRows : Int) : Except String Table :=
  if nRows ≤ 0 then .error "invalid nRows"
  else if !validSchema sc then .error "invalid schema"
  else .ok (genRows sc.columns 0 nRows.toNat sc.seed).1

/-- Per-cell conformance of a generated value to its declared column kind:
an identifier cell at row `i` equals `start + i`; an integer or float cell
lies in the declared `[min, max]`; a categorical cell is one of the declared
`values`. -/
def cellOk (k : ColKind) (i : Nat) (v : Value) : Bool :=
  match k, v with
  | .identifier start, .num q => decide (q = ((start + (i : Int) : Int) : ℚ))
  | .intCol lo hi, .num q => decide ((lo : ℚ) ≤ q ∧ q ≤ (hi : ℚ))
  | .floatCol lo hi, .num q => decide (lo ≤ q ∧ q ≤ hi)
  | .categorical vs, .str s => decide (s ∈ vs)
  | _, _ => false

/-- A valid column spec generates a conforming cell from every stream
state. -/
lemma cellOk_genCell (c : ColSpec) (hv : validColSpec c = true)
    (i s : Nat) : cellOk c.kind i (genCell c.kind i s).1 = true := by
  rcases c with ⟨name, k⟩
  match k with
  | .identifier start =>
      simp [genCell, cellOk]
  | .intCol lo hi =>
      simp only [validColSpec, decide_eq_true_eq] at hv
      have hm : ((hi + 1 - lo).toNat : Int) = hi + 1 - lo := by
        apply Int.toNat_of_nonneg; omega
      have hmpos : 0 < (hi + 1 - lo).toNat := by omega
      have hr : (lcgNext s) % (hi + 1 - lo).toNat < (hi + 1 - lo).toNat :=
        Nat.mod_lt _ hmpos
      have h0 : (0 : Int) ≤ ((lcgNext s % (hi + 1 - lo).toNat : Nat) : Int) :=
        Int.ofNat_nonneg _
      have h1 : ((lcgNext s % (hi + 1 - lo).toNat : Nat) : Int)
          < hi + 1 - lo := by
        rw [← hm]; exact_mod_cast hr
      have hlow : lo ≤ lo + ((lcgNext s % (hi + 1 - lo).toNat : Nat) : Int) := by
        omega
      have hhigh : lo + ((lcgNext s % (hi + 1 - lo).toNat : Nat) : Int) ≤ hi := by
        omega
      simp only [genCell, cellOk, decide_eq_true_eq]
      exact ⟨by exact_mod_cast hlow, by exact_mod_cast hhigh⟩
  | .floatCol lo hi =>
      simp only [validColSpec, decide_eq_true_eq] at hv
      have hMn : (0 : Nat) < rngMod := by
        have : rngMod = 4294967296 := by decide
        omega
      have hM : (0 : ℚ) < (rngMod : ℚ) := by exact_mod_cast hMn
      have hlt : (lcgNext s) < rngMod := by
        unfold lcgNext
        exact Nat.mod_lt _ hMn
      have hfrac0 : (0 : ℚ) ≤ (lcgNext s : ℚ) / (rngMod : ℚ) :=
        div_nonneg (Nat.cast_nonneg _) (le_of_lt hM)
      have hfrac1 : (lcgNext s : ℚ) / (rngMod : ℚ) ≤ 1 := by
        rw [div_le_one hM]
        exact_mod_cast le_of_lt hlt
      have hdn : (0 : ℚ) ≤ hi - lo := by linarith
      have hp0 : (0 : ℚ) ≤ (hi - lo) * ((lcgNext s : ℚ) / (rngMod : ℚ)) :=
        mul_nonneg hdn hfrac0
      have hp1 : (hi - lo) * ((lcgNext s : ℚ) / (rngMod : ℚ)) ≤ (hi - lo) * 1 :=
        mul_le_mul_of_nonneg_left hfrac1 hdn
      simp only [genCell, cellOk, decide_eq_true_eq]
      constructor
      · linarith
      · linarith
  | .categorical vs =>
      simp only [validColSpec, Bool.not_eq_true'] at hv
      have hne : vs ≠ [] := by
        intro h; rw [h] at hv; simp at hv
      have hlen : 0 < vs.length := List.length_pos.mpr hne
      have hidx : (lcgNext s) % vs.length < vs.length := Nat.mod_lt _ hlen
      simp only [genCell, cellOk, decide_eq_true_eq]
      rw [List.getD_eq_getElem?_getD, List.getElem?_eq_getElem hidx]
      simp only [Option.getD_some]
      exact List.getElem_mem hidx

/-- A generated row has one cell per schema column. -/
lemma genRow_length (cols : List ColSpec) (i s : Nat) :
    (genRow cols i s).1.length = cols.length := by
  induction cols generalizing s with
  | nil => simp [genRow]
  | cons c cs ih => simp [genRow, ih]

/-- Each cell of a generated row is the cell generated for the matching
column at some stream state. -/
lemma genRow_getD (cols : List ColSpec) (i s j : Nat)
    (hj : j < cols.length) :
    ∃ st, (genRow cols i s).1.getD j .null
      = (genCell (cols.getD j default).kind i st).1 := by
  induction cols generalizing s j with
  | nil => simp at hj
  | cons c cs ih =>
      match j with
      | 0 => exact ⟨s, by simp [genRow]⟩
      | j + 1 =>
          have hj' : j < cs.length := by simpa using hj
          obtain ⟨st, hst⟩ := ih (genCell c.kind i s).2 j hj'
          exact ⟨st, by simpa [genRow] using hst⟩

/-- Generating `n` rows yields exactly `n` rows. -/
lemma genRows_length (cols : List ColSpec) (i n s : Nat) :
    (genRows cols i n s).1.length = n := by
  induction n generalizing i s with
  | zero => simp [genRows]
  | succ n ih => simp [genRows, ih]

/-- The `k`-th generated row is the row generated at row index `i + k`
from some stream state. -/
lemma genRows_getD (cols : List ColSpec) (i n s k : Nat) (hk : k < n) :
    ∃ st, (genRows cols i n s).1.getD k []
      = (genRow cols (i + k) st).1 := by
  induction n generalizing i s k with
  | zero => omega
  | succ n ih =>
      match k with
      | 0 => exact ⟨s, by simp [genRows]⟩
      | k + 1 =>
          have hk' : k < n := by omega
          obtain ⟨st, hst⟩ :=
            ih (i + 1) (genRow cols i s).2 k hk'
          refine ⟨st, ?_⟩
          simpa [genRows, Nat.add_assoc, Nat.add_comm 1 k] using hst

/-- The canonical string form of a cell, used when serializing a table. -/
def valueRepr : Value → String
  | .num q => toString q
  | .str s => s
  | .null => ""

/-- Byte serialization of a table: comma-separated cells, newline-separated
rows — the form in which generated tables are written out and compared for
byte identity. -/
def serializeTable (t : Table) : String :=
  String.intercalate "\n" (t.map fun r => String.intercalate "," (r.map valueRepr))

/-- Every column of a schema accepted by `validSchema` is a valid column
spec. -/
lemma validSchema_getD (sc : DeclSchema) (hv : validSchema sc = true)
    (j : Nat) (hj : j < sc.columns.length) :
    validColSpec (sc.columns.getD j default) = true := by
  have hmem : sc.columns.getD j default ∈ sc.columns := by
    rw [List.getD_eq_getElem?_getD, List.getElem?_eq_getElem hj]
    simp only [Option.getD_some]
    exact List.getElem_mem hj
  exact List.all_eq_true.mp hv _ hmem

/-- Inversion of a successful generation: the row count was positive, the
schema valid, and the table is the seeded run of the generator. -/
lemma generateFromSchema_ok (sc : DeclSchema) (n : Int) (t : Table)
    (h : generateFromSchema sc n = .ok t) :
    0 < n ∧ validSchema sc = true ∧
      t = (genRows sc.columns 0 n.toNat sc.seed).1 := by
  unfold generateFromSchema at h
  by_cases hn : n ≤ 0
  · rw [if_pos hn] at h; exact absurd h (by simp)
  · rw [if_neg hn] at h
    by_cases hv : validSchema sc
    · rw [hv] at h
      simp only [Bool.not_true, Bool.false_eq_true, if_false, Except.ok.injEq] at h
      exact ⟨by omega, hv, h.symm⟩
    · simp only [Bool.not_eq_true] at hv
      rw [hv] at h
      exact absurd h (by simp)

/-! ## Claim theorems: generator -/

/-- C1: for every valid declared schema, seed and row count, two calls to
`generateFromSchema` with identical `(schema, seed, nRows)` produce
byte-identical output tables (the seed is part of the declared schema). -/
theorem generateFromSchema_deterministic (sc : DeclSchema) (n : Int)
    (t₁ t₂ : Table) (h₁ : generateFromSchema sc n = .ok t₁)
    (h₂ : generateFromSchema sc n = .ok t₂) :
    serializeTable t₁ = serializeTable t₂ := by
  have : Except.ok (ε := String) t₁ = Except.ok t₂ := h₁.symm.trans h₂
  simp only [Except.ok.injEq] at this
  rw [this]

/-- The schema of the documented Mode B example (API_TEST_CASES TEST 15):
identifier from 1, int age in [18,90], float income in [30000,120000],
categorical gender over {M, F}, seed 42. -/
def testSchema : DeclSchema :=
  { seed := 42
    columns :=
      [ ⟨"id", .identifier 1⟩
      , ⟨"age", .intCol 18 90⟩
      , ⟨"income", .floatCol 30000 120000⟩
      , ⟨"gender", .categorical ["M", "F"]⟩ ] }

/-- The table the model generator produces for `testSchema` with 3 rows. -/
def testTable : Table := (genRows testSchema.columns 0 3 testSchema.seed).1

theorem generateFromSchema_deterministic_witness :
    generateFromSchema testSchema 3 = .ok testTable ∧
      serializeTable testTable = serializeTable testTable :=
  ⟨by rfl,
   generateFromSchema_deterministic testSchema 3 testTable testTable
     (by rfl) (by rfl)⟩

/-- Core conformance fact, shared by the bounds and round-trip results:
every cell of a successfully generated table satisfies `cellOk` for its
column's declared kind at its row index. -/
lemma generated_cell_conform_aux (sc : DeclSchema) (n : Int) (t : Table)
    (hgen : generateFromSchema sc n = .ok t) (i j : Nat)
    (hi : i < t.length) (hj : j < sc.columns.length) :
    cellOk ((sc.columns.getD j default).kind) i
      ((t.getD i []).getD j .null) = true := by
  obtain ⟨hn, hv, ht⟩ := generateFromSchema_ok sc n t hgen
  subst ht
  rw [genRows_length] at hi
  obtain ⟨st, hrow⟩ := genRows_getD sc.columns 0 n.toNat sc.seed i hi
  rw [hrow]
  obtain ⟨st', hcell⟩ := genRow_getD sc.columns (0 + i) st j hj
  rw [hcell, Nat.zero_add]
  exact cellOk_genCell _ (validSchema_getD sc hv j hj) i st'

/-- C3: in every table produced by `generateFromSchema`, the cell at row
`i`, column `j` conforms to column `j`'s declared kind: an identifier cell
equals `start + i`, an integer or float cell lies within the declared
`[min, max]`, and a categorical cell is one of the declared values. -/
theorem generated_cells_conform (sc : DeclSchema) (n : Int) (t : Table)
    (hgen : generateFromSchema sc n = .ok t) (i j : Nat)
    (hi : i < t.length) (hj : j < sc.columns.length) :
    cellOk ((sc.columns.getD j default).kind) i
      ((t.getD i []).getD j .null) = true :=
  generated_cell_conform_aux sc n t hgen i j hi hj

theorem generated_cells_conform_witness :
    generateFromSchema testSchema 3 = .ok testTable ∧
      0 < testTable.length ∧ 1 < testSchema.columns.length ∧
      cellOk ((testSchema.columns.getD 1 default).kind) 0
        ((testTable.getD 0 []).getD 1 .null) = true :=
  ⟨by rfl, by decide, by decide,
   generated_cells_conform testSchema 3 testTable (by rfl) 0 1
     (by decide) (by decide)⟩

/-- C8: `generateFromSchema` rejects with an error — producing no table —
whenever some numeric column has `min > max`, some categorical column has an
empty `values` list, or `nRows ≤ 0`. -/
theorem invalid_requests_rejected (sc : DeclSchema) (n : Int)
    (h : (∃ c ∈ sc.columns,
            (∃ lo hi, c.kind = .intCol lo hi ∧ hi < lo) ∨
            (∃ lo hi, c.kind = .floatCol lo hi ∧ hi < lo) ∨
            c.kind = .categorical []) ∨ n ≤ 0) :
    ∃ e, generateFromSchema sc n = .error e := by
  by_cases hn : n ≤ 0
  · exact ⟨"invalid nRows", by unfold generateFromSchema; rw [if_pos hn]⟩
  · have hbad : validSchema sc = false := by
      rcases h with ⟨c, hmem, hc⟩ | hn'
      · rw [validSchema, List.all_eq_false]
        refine ⟨c, hmem, ?_⟩
        rcases hc with ⟨lo, hi, hk, hlt⟩ | ⟨lo, hi, hk, hlt⟩ | hk
        · simp [validColSpec, hk]; omega
        · simp [validColSpec, hk]; exact hlt
        · simp [validColSpec, hk]
      · exact absurd hn' hn
    refine ⟨"invalid schema", ?_⟩
    unfold generateFromSchema
    rw [if_neg hn, hbad]
    rfl

/-- A schema whose numeric column declares `min > max`. -/
def badSchema : DeclSchema :=
  { seed := 7, columns := [⟨"x", .intCol 5 3⟩] }

theorem invalid_requests_rejected_witness :
    ((∃ c ∈ badSchema.columns,
        (∃ lo hi, c.kind = .intCol lo hi ∧ hi < lo) ∨
        (∃ lo hi, c.kind = .floatCol lo hi ∧ hi < lo) ∨
        c.kind = .categorical []) ∨ (10 : Int) ≤ 0) ∧
      ∃ e, generateFromSchema badSchema 10 = .error e :=
  ⟨Or.inl ⟨⟨"x", .intCol 5 3⟩, by simp [badSchema],
     Or.inl ⟨5, 3, rfl, by norm_num⟩⟩,
   invalid_requests_rejected badSchema 10
     (Or.inl ⟨⟨"x", .intCol 5 3⟩, by simp [badSchema],
       Or.inl ⟨5, 3, rfl, by norm_num⟩⟩)⟩

/-! ## Schema inference

Modelled from the spec: §4.1 Schema Inference and the engine notes —
"Numeric columns with unique values ≤ `categorical_threshold` (default 10)
are treated as categorical; integer detection falls back to whole-number
check. Categorical categories are sorted strings; missingness is tracked but
not imputed." -/

/-- The inferred kind of a column. -/
inductive Kind where
  | integer
  | float
  | categorical
  | identifier
  deriving DecidableEq, Repr

/-- An inferred column description: name, kind, observed numeric bounds,
sorted category labels, observed missing rate, identifier hint. -/
structure ColumnInfo where
  name : String
  kind : Kind
  min : ℚ := 0
  max : ℚ := 0
  categories : List String := []
  missingRate : ℚ := 0
  isIdentifier : Bool := false
  deriving DecidableEq, Repr

instance : Inhabited ColumnInfo := ⟨⟨"", Kind.categorical, 0, 0, [], 0, false⟩⟩

/-- Whether a cell is a null/missing marker. -/
def isNull : Value → Bool
  | .null => true
  | _ => false

/-- The numeric reading of a cell, when it has one. -/
def numVal? : Value → Option ℚ
  | .num q => some q
  | _ => none

/-- The non-null cells of a column. -/
def nonNulls (col : List Value) : List Value := col.filter fun v => !isNull v

/-- Every non-null cell of the column is numeric. -/
def allNumeric (col : List Value) : Bool :=
  (nonNulls col).all fun v => (numVal? v).isSome

/-- The numeric values of the column's non-null cells. -/
def numericVals (col : List Value) : List ℚ :=
  (nonNulls col).filterMap numVal?

/-- A rational is a whole number iff it has zero fractional part. -/
def isWhole (q : ℚ) : Bool := q.den = 1

/-- Observed fraction of null cells. -/
def missingRateOf (col : List Value) : ℚ :=
  (col.countP isNull : ℚ) / (col.length : ℚ)

/-- Lexicographically sorted, de-duplicated category labels of a column's
non-null cells. -/
def sortedCategories (col : List Value) : List String :=
  (((nonNulls col).map valueRepr).dedup).insertionSort (· ≤ ·)

/-- Default categorical threshold used by schema inference. -/
def defaultCategoricalThreshold : Nat := 10

/-- Infer one column's description.  Modelled from the spec: §4.1 — compute
the missing rate; if all non-null values are numeric, classify Categorical
when the distinct count is ≤ the threshold, else Integer when every value is
whole, else Float, recording observed min/max; otherwise classify
Categorical over the sorted distinct labels. -/
def inferColumn (threshold : Nat) (name : String) (col : List Value) :
    ColumnInfo :=
  let mr := missingRateOf col
  if allNumeric col then
    let qs := numericVals col
    if qs.dedup.length ≤ threshold then
      { name := name, kind := .categorical, categories := sortedCategories col
        missingRate := mr }
    else if qs.all isWhole then
      { name := name, kind := .integer, min := qs.foldr min 0
        max := qs.foldr max 0, missingRate := mr }
    else
      { name := name, kind := .float, min := qs.foldr min 0
        max := qs.foldr max 0, missingRate := mr }
  else
    { name := name, kind := .categorical, categories := sortedCategories col
      missingRate := mr }

/-- Infer a whole schema from a dataset given as named columns.  Modelled
from the spec: §4.1 Failure — an explicit "empty dataset" error when the
table has zero columns or zero rows. -/
def inferSchema (threshold : Nat) (data : List (String × List Value)) :
    Except String (List ColumnInfo) :=
  if data.isEmpty ∨ data.any (fun c => c.2.isEmpty) then .error "empty dataset"
  else .ok (data.map fun c => inferColumn threshold c.1 c.2)

/-- C2: for a column whose non-null values are all numeric, inference
classifies it Categorical iff the count of distinct non-null values is at
most the categorical threshold; otherwise it classifies the column Integer
iff every non-null value has zero fractional part, else Float. -/
theorem inference_classifies_numeric (threshold : Nat) (name : String)
    (col : List Value) (hnum : allNumeric col = true) :
    ((inferColumn threshold name col).kind = .categorical ↔
      (numericVals col).dedup.length ≤ threshold) ∧
    (threshold < (numericVals col).dedup.length →
      (((inferColumn threshold name col).kind = .integer ↔
          (numericVals col).all isWhole = true) ∧
       ((inferColumn threshold name col).kind = .float ↔
          ¬ (numericVals col).all isWhole = true))) := by
  unfold inferColumn
  rw [hnum]
  simp only [if_true]
  by_cases hth : (numericVals col).dedup.length ≤ threshold
  · rw [if_pos hth]
    simp only [hth, iff_true]
    exact ⟨trivial, fun hgt => absurd hth (by omega)⟩
  · rw [if_neg hth]
    by_cases hw : (numericVals col).all isWhole
    · rw [if_pos hw]
      simp only [hw]
      refine ⟨by simp [hth], fun _ => ⟨by simp, by simp⟩⟩
    · rw [if_neg hw]
      simp only [Bool.not_eq_true] at hw
      refine ⟨by simp [hth], fun _ => ⟨by simp [hw], by simp [hw]⟩⟩

/-- The documented concrete scenario: `age` =
[18,18,19,20,90,90,90,90,90,90] has 4 distinct values, so with the default
threshold 10 it is classified Categorical. -/
def ageColumn : List Value :=
  [.num 18, .num 18, .num 19, .num 20, .num 90, .num 90, .num 90, .num 90,
   .num 90, .num 90]

theorem inference_classifies_numeric_witness :
    allNumeric ageColumn = true ∧
      ((inferColumn defaultCategoricalThreshold "age" ageColumn).kind =
          .categorical ↔
        (numericVals ageColumn).dedup.length ≤ defaultCategoricalThreshold) :=
  ⟨by decide,
   (inference_classifies_numeric defaultCategoricalThreshold "age" ageColumn
      (by decide)).1⟩

/-! ## Constraint post-processor

Modelled from the spec: §4.2 Constraint Post-Processor and the engine notes
— "Constraints apply only if `apply_constraints=True` (default). Numeric
columns are clipped to inferred bounds; ints rounded then cast; floats cast;
categoricals coerced to strings without strict category validation." -/

/-- A column-oriented table: one list of cells per column, aligned with the
schema by position. -/
abbrev ColTable := List (List Value)

/-- Clamp `x` into the inclusive interval `[lo, hi]`. -/
def clip (lo hi x : ℚ) : ℚ := max lo (min x hi)

/-- Transform one cell according to its column's inferred description:
Integer → round to nearest whole number then clip; Float → clip only;
Categorical → coerce to string form with no category validation; identifier
and kind-mismatched cells pass through. -/
def constrainValue (ci : ColumnInfo) (v : Value) : Value :=
  match ci.kind, v with
  | .integer, .num q => .num (clip ci.min ci.max ((round q : ℤ) : ℚ))
  | .float, .num q => .num (clip ci.min ci.max q)
  | .categorical, .null => .null
  | .categorical, v => .str (valueRepr v)
  | _, v => v

/-- Constraint post-processing of a generated table.  Modelled from the
spec: §4.2 — a no-op pass-through when `applyConstraints` is false; fails
only on a column-count mismatch; otherwise maps `constrainValue` over each
column. -/
def postProcess (schema : List ColumnInfo) (t : ColTable)
    (applyConstraints : Bool) : Except String ColTable :=
  if !applyConstraints then .ok t
  else if schema.length ≠ t.length then .error "mismatched column count"
  else .ok ((schema.zip t).map fun p => p.2.map (constrainValue p.1))

/-- C5 (per-cell behavior): the integer transform rounds then clips, the
float transform clips without rounding, the categorical transform coerces to
string form and never inspects the declared categories. -/
lemma constrainValue_spec (ci : ColumnInfo) :
    (ci.kind = .integer → ∀ q : ℚ, constrainValue ci (.num q)
        = .num (clip ci.min ci.max ((round q : ℤ) : ℚ))) ∧
    (ci.kind = .float → ∀ q : ℚ, constrainValue ci (.num q)
        = .num (clip ci.min ci.max q)) ∧
    (ci.kind = .categorical → (∀ v, v ≠ .null →
        constrainValue ci v = .str (valueRepr v)) ∧
      ∀ cats : List String,
        constrainValue { ci with categories := cats } = constrainValue ci) := by
  refine ⟨fun hk q => ?_, fun hk q => ?_, fun hk => ⟨fun v hv => ?_, fun cats => ?_⟩⟩
  · simp [constrainValue, hk]
  · simp [constrainValue, hk]
  · cases v with
    | num q => simp [constrainValue, hk]
    | str s => simp [constrainValue, hk]
    | null => exact absurd rfl hv
  · funext v
    cases v with
    | num q => simp [constrainValue, hk]
    | str s => simp [constrainValue, hk]
    | null => simp [constrainValue, hk]

/-- C5: with `applyConstraints = true` and matching column counts, the
post-processor succeeds, keeps the column count and order, keeps every
column's row count, and rewrites each column by `constrainValue` of its
declared description; with `applyConstraints = false` it returns the table
unchanged. -/
theorem postProcess_spec (schema : List ColumnInfo) (t : ColTable)
    (hlen : schema.length = t.length) :
    (∃ u, postProcess schema t true = .ok u ∧
      u.length = t.length ∧
      (∀ j, j < t.length →
        u.getD j [] = (t.getD j []).map
          (constrainValue (schema.getD j default)) ∧
        (u.getD j []).length = (t.getD j []).length)) ∧
    postProcess schema t false = .ok t ∧
    (∀ ci : ColumnInfo,
      (ci.kind = .integer → ∀ q : ℚ, constrainValue ci (.num q)
          = .num (clip ci.min ci.max ((round q : ℤ) : ℚ))) ∧
      (ci.kind = .float → ∀ q : ℚ, constrainValue ci (.num q)
          = .num (clip ci.min ci.max q)) ∧
      (ci.kind = .categorical → (∀ v, v ≠ .null →
          constrainValue ci v = .str (valueRepr v)) ∧
        ∀ cats : List String,
          constrainValue { ci with categories := cats } = constrainValue ci)) := by
  refine ⟨?_, ?_, fun ci => constrainValue_spec ci⟩
  · refine ⟨(schema.zip t).map fun p => p.2.map (constrainValue p.1), ?_, ?_, ?_⟩
    · unfold postProcess
      rw [if_neg (by simp), if_neg (by omega)]
    · simp [List.length_zip, hlen]
    · intro j hj
      have hjz : j < (schema.zip t).length := by
        simp [List.length_zip]; omega
      have hjs : j < schema.length := by omega
      have hget : ((schema.zip t).map fun p =>
          p.2.map (constrainValue p.1)).getD j []
          = (t.getD j []).map (constrainValue (schema.getD j default)) := by
        rw [List.getD_eq_getElem?_getD,
          List.getElem?_eq_getElem (by simpa using hjz)]
        simp only [Option.getD_some, List.getElem_map, List.getElem_zip]
        rw [List.getD_eq_getElem?_getD, List.getElem?_eq_getElem hjs,
          List.getD_eq_getElem?_getD, List.getElem?_eq_getElem hj]
        simp
      exact ⟨hget, by rw [hget]; simp⟩
  · unfold postProcess
    rw [if_pos (by simp)]

theorem postProcess_spec_witness :
    ([(default : ColumnInfo)].length = [[Value.num 3]].length) ∧
      ((∃ u, postProcess [default] [[Value.num 3]] true = .ok u ∧
        u.length = [[Value.num 3]].length ∧
        (∀ j, j < [[Value.num 3]].length →
          u.getD j [] = ([[Value.num 3]].getD j []).map
            (constrainValue ([(default : ColumnInfo)].getD j default)) ∧
          (u.getD j []).length = ([[Value.num 3]].getD j []).length)) ∧
      postProcess [default] [[Value.num 3]] false = .ok [[Value.num 3]] ∧
      (∀ ci : ColumnInfo,
        (ci.kind = .integer → ∀ q : ℚ, constrainValue ci (.num q)
            = .num (clip ci.min ci.max ((round q : ℤ) : ℚ))) ∧
        (ci.kind = .float → ∀ q : ℚ, constrainValue ci (.num q)
            = .num (clip ci.min ci.max q)) ∧
        (ci.kind = .categorical → (∀ v, v ≠ .null →
            constrainValue ci v = .str (valueRepr v)) ∧
          ∀ cats : List String,
            constrainValue { ci with categories := cats }
              = constrainValue ci))) :=
  ⟨by decide, postProcess_spec [default] [[Value.num 3]] (by decide)⟩

/-! ## Schema-consistency evaluator

Modelled from the spec: §4.6 Schema-Consistency Evaluator — per-column type
check, range check for numeric kinds, category check for categoricals,
null-rate computation, a separate uniqueness check for identifier columns,
and `schemaValidity = Pass` iff zero range violations, zero category
violations and no identifier issues. -/

/-- The cells of column `j` of a row-oriented table. -/
def colValues (t : Table) (j : Nat) : List Value :=
  t.map fun r => r.getD j .null

/-- Range violations of one column: numeric cells strictly outside the
declared inclusive `[min, max]`. -/
def rangeViolationsOf (k : ColKind) (vals : List Value) : Nat :=
  match k with
  | .intCol lo hi => vals.countP fun v =>
      match v with
      | .num q => decide (q < (lo : ℚ) ∨ (hi : ℚ) < q)
      | _ => false
  | .floatCol lo hi => vals.countP fun v =>
      match v with
      | .num q => decide (q < lo ∨ hi < q)
      | _ => false
  | _ => 0

/-- Category violations of one column: non-null cells whose string form is
not among the declared values. -/
def categoryViolationsOf (k : ColKind) (vals : List Value) : Nat :=
  match k with
  | .categorical vs => vals.countP fun v =>
      match v with
      | .null => false
      | v => decide (valueRepr v ∉ vs)
  | _ => 0

/-- Number of duplicated cells of an identifier column. -/
def duplicateCountOf (k : ColKind) (vals : List Value) : Nat :=
  match k with
  | .identifier _ => vals.length - vals.dedup.length
  | _ => 0

/-- Cells that do not parse as the declared kind: numeric kinds reject
strings, integer and identifier kinds additionally reject non-whole
numerics; categoricals accept everything via string coercion. -/
def typeMismatchesOf (k : ColKind) (vals : List Value) : Nat :=
  match k with
  | .intCol _ _ => vals.countP fun v =>
      match v with
      | .num q => !isWhole q
      | .str _ => true
      | .null => false
  | .floatCol _ _ => vals.countP fun v =>
      match v with
      | .str _ => true
      | _ => false
  | .identifier _ => vals.countP fun v =>
      match v with
      | .num q => !isWhole q
      | .str _ => true
      | .null => false
  | .categorical _ => 0

/-- Result of a schema-consistency evaluation. -/
structure SchemaConsistencyResult where
  schemaValidity : Bool
  typeConsistency : String
  rangeViolations : Nat
  categoryViolations : Nat
  nullRate : List (String × ℚ)
  identifierIssues : Option String
  deriving DecidableEq, Repr

/-- Schema-consistency evaluation of a synthetic table against a declared
schema.  Modelled from the spec: §4.6 and §6 —
`evaluateSchemaConsistency(schema, syntheticTable) ->
SchemaConsistencyResult`; validity passes iff there are zero range
violations, zero category violations and no identifier issues. -/
def evaluateSchemaConsistency (sc : DeclSchema) (t : Table) :
    SchemaConsistencyResult :=
  let cols := sc.columns
  let rv := ((List.range cols.length).map fun j =>
    rangeViolationsOf (cols.getD j default).kind (colValues t j)).sum
  let cv := ((List.range cols.length).map fun j =>
    categoryViolationsOf (cols.getD j default).kind (colValues t j)).sum
  let dup := ((List.range cols.length).map fun j =>
    duplicateCountOf (cols.getD j default).kind (colValues t j)).sum
  let tm := ((List.range cols.length).map fun j =>
    typeMismatchesOf (cols.getD j default).kind (colValues t j)).sum
  { schemaValidity := decide (rv = 0) && decide (cv = 0) && decide (dup = 0)
    typeConsistency :=
      if tm = 0 then "All columns match declared types"
      else "Type mismatches detected"
    rangeViolations := rv
    categoryViolations := cv
    nullRate := (List.range cols.length).map fun j =>
      ((cols.getD j default).name, missingRateOf (colValues t j))
    identifierIssues :=
      if dup = 0 then none
      else some ("duplicate identifier values: " ++ toString dup) }

/-- Every cell of column `j` of a generated table satisfies `cellOk` at
some row index. -/
lemma mem_colValues_cellOk (sc : DeclSchema) (n : Int) (t : Table)
    (hgen : generateFromSchema sc n = .ok t) (j : Nat)
    (hj : j < sc.columns.length) (v : Value) (hv : v ∈ colValues t j) :
    ∃ i, cellOk ((sc.columns.getD j default).kind) i v = true := by
  obtain ⟨r, hr, hrv⟩ := List.mem_map.mp hv
  obtain ⟨i, hi, hri⟩ := List.mem_iff_getElem.mp hr
  refine ⟨i, ?_⟩
  have ht : t.getD i [] = r := by
    rw [List.getD_eq_getElem?_getD, List.getElem?_eq_getElem hi]
    simp [hri]
  have := generated_cell_conform_aux sc n t hgen i j hi hj
  rwa [ht, hrv] at this

/-- The identifier column of a generated table is exactly the sequence
`start, start+1, …` in row order. -/
lemma colValues_identifier (sc : DeclSchema) (n : Int) (t : Table)
    (hgen : generateFromSchema sc n = .ok t) (j : Nat)
    (hj : j < sc.columns.length) (start : Int)
    (hk : (sc.columns.getD j default).kind = .identifier start) :
    colValues t j = (List.range t.length).map
      fun (i : Nat) => Value.num (((start + (i : Int) : Int)) : ℚ) := by
  apply List.ext_getElem
  · simp [colValues]
  · intro i h1 h2
    have hi : i < t.length := by simpa [colValues] using h1
    have hcell := generated_cell_conform_aux sc n t hgen i j hi hj
    rw [hk] at hcell
    have ht : t.getD i [] = t[i] := by
      rw [List.getD_eq_getElem?_getD, List.getElem?_eq_getElem hi]
      simp
    rw [ht] at hcell
    have hcv : (colValues t j)[i] = (t[i]).getD j .null := by
      simp [colValues]
    rw [hcv]
    simp only [List.getElem_map, List.getElem_range]
    cases hv : (t[i]).getD j .null with
    | num q =>
        rw [hv] at hcell
        simp only [cellOk, decide_eq_true_eq] at hcell
        simp [hcell]
    | str s => rw [hv] at hcell; simp [cellOk] at hcell
    | null => rw [hv] at hcell; simp [cellOk] at hcell

/-- C4: checking a table produced by `generateFromSchema` against the very
schema it was generated from always passes: zero range violations, zero
category violations, no identifier issues, and `schemaValidity = Pass`. -/
theorem roundtrip_schema_consistency (sc : DeclSchema) (n : Int) (t : Table)
    (hgen : generateFromSchema sc n = .ok t) :
    (evaluateSchemaConsistency sc t).schemaValidity = true ∧
    (evaluateSchemaConsistency sc t).rangeViolations = 0 ∧
    (evaluateSchemaConsistency sc t).categoryViolations = 0 ∧
    (evaluateSchemaConsistency sc t).identifierIssues = none := by
  have hrv : ∀ j ∈ List.range sc.columns.length,
      rangeViolationsOf (sc.columns.getD j default).kind (colValues t j)
        = 0 := by
    intro j hjr
    have hj : j < sc.columns.length := List.mem_range.mp hjr
    cases hkind : (sc.columns.getD j default).kind with
    | identifier start => simp [rangeViolationsOf]
    | categorical vs => simp [rangeViolationsOf]
    | intCol lo hi =>
        simp only [rangeViolationsOf]
        rw [List.countP_eq_zero]
        intro v hv
        obtain ⟨i, hok⟩ := mem_colValues_cellOk sc n t hgen j hj v hv
        rw [hkind] at hok
        cases v with
        | num q =>
            simp only [cellOk, decide_eq_true_eq] at hok
            simp only [decide_eq_true_eq]
            push_neg
            exact ⟨hok.1, hok.2⟩
        | str s => simp
        | null => simp
    | floatCol lo hi =>
        simp only [rangeViolationsOf]
        rw [List.countP_eq_zero]
        intro v hv
        obtain ⟨i, hok⟩ := mem_colValues_cellOk sc n t hgen j hj v hv
        rw [hkind] at hok
        cases v with
        | num q =>
            simp only [cellOk, decide_eq_true_eq] at hok
            simp only [decide_eq_true_eq]
            push_neg
            exact ⟨hok.1, hok.2⟩
        | str s => simp
        | null => simp
  have hcv : ∀ j ∈ List.range sc.columns.length,
      categoryViolationsOf (sc.columns.getD j default).kind (colValues t j)
        = 0 := by
    intro j hjr
    have hj : j < sc.columns.length := List.mem_range.mp hjr
    cases hkind : (sc.columns.getD j default).kind with
    | identifier start => simp [categoryViolationsOf]
    | intCol lo hi => simp [categoryViolationsOf]
    | floatCol lo hi => simp [categoryViolationsOf]
    | categorical vs =>
        simp only [categoryViolationsOf]
        rw [List.countP_eq_zero]
        intro v hv
        obtain ⟨i, hok⟩ := mem_colValues_cellOk sc n t hgen j hj v hv
        rw [hkind] at hok
        cases v with
        | num q => simp [cellOk] at hok
        | null => simp [cellOk] at hok
        | str s =>
            simp only [cellOk, decide_eq_true_eq] at hok
            simp [valueRepr, hok]
  have hdup : ∀ j ∈ List.range sc.columns.length,
      duplicateCountOf (sc.columns.getD j default).kind (colValues t j)
        = 0 := by
    intro j hjr
    have hj : j < sc.columns.length := List.mem_range.mp hjr
    cases hkind : (sc.columns.getD j default).kind with
    | intCol lo hi => simp [duplicateCountOf]
    | floatCol lo hi => simp [duplicateCountOf]
    | categorical vs => simp [duplicateCountOf]
    | identifier start =>
        simp only [duplicateCountOf]
        have hcol := colValues_identifier sc n t hgen j hj start hkind
        have hnd : (colValues t j).Nodup := by
          rw [hcol]
          refine List.Nodup.map ?_ (List.nodup_range _)
          intro a b hab
          simp only [Value.num.injEq] at hab
          have : (start + (a : Int)) = start + (b : Int) := by
            exact_mod_cast hab
          omega
        rw [List.dedup_eq_self.mpr hnd]
        omega
  have hrv0 : ((List.range sc.columns.length).map fun j =>
      rangeViolationsOf (sc.columns.getD j default).kind
        (colValues t j)).sum = 0 := by
    apply List.sum_eq_zero
    intro x hx
    obtain ⟨j, hjr, hxj⟩ := List.mem_map.mp hx
    rw [← hxj]; exact hrv j hjr
  have hcv0 : ((List.range sc.columns.length).map fun j =>
      categoryViolationsOf (sc.columns.getD j default).kind
        (colValues t j)).sum = 0 := by
    apply List.sum_eq_zero
    intro x hx
    obtain ⟨j, hjr, hxj⟩ := List.mem_map.mp hx
    rw [← hxj]; exact hcv j hjr
  have hdup0 : ((List.range sc.columns.length).map fun j =>
      duplicateCountOf (sc.columns.getD j default).kind
        (colValues t j)).sum = 0 := by
    apply List.sum_eq_zero
    intro x hx
    obtain ⟨j, hjr, hxj⟩ := List.mem_map.mp hx
    rw [← hxj]; exact hdup j hjr
  unfold evaluateSchemaConsistency
  simp only [hrv0, hcv0, hdup0]
  simp

theorem roundtrip_schema_consistency_witness :
    generateFromSchema testSchema 3 = .ok testTable ∧
      ((evaluateSchemaConsistency testSchema testTable).schemaValidity = true ∧
       (evaluateSchemaConsistency testSchema testTable).rangeViolations = 0 ∧
       (evaluateSchemaConsistency testSchema testTable).categoryViolations = 0 ∧
       (evaluateSchemaConsistency testSchema testTable).identifierIssues
         = none) :=
  ⟨by rfl, roundtrip_schema_consistency testSchema 3 testTable (by rfl)⟩

/-! ## Statistical similarity evaluator

Modelled from the spec: §4.4 Statistical Similarity Evaluator and the
evaluation README — per-categorical-column chi-square goodness-of-fit with
categories aligned on the union of both observed sets ("Missing categories
in one dataset: treated as 0 count. Empty columns: skipped. Zero-count
categories: preserved"), per-numeric-column two-sample test, and the
correlation-matrix MSE with a skip note when fewer than two numeric columns
exist.  The statistical routines themselves (chi-square, KS, Pearson) are
external library calls, so the evaluator is parametrized over them; every
property proved holds for every such routine. -/

/-- A per-column test outcome. -/
structure TestResult where
  statistic : ℚ
  pValue : ℚ
  similar : Bool
  deriving DecidableEq, Repr

/-- The distinct observed category labels (string forms of non-null cells)
of a column. -/
def observedCats (col : List Value) : List String :=
  ((nonNulls col).map valueRepr).dedup

/-- The union of both tables' observed category sets for one column. -/
def catUnion (real synth : List Value) : List String :=
  (observedCats real ++ observedCats synth).dedup

/-- Observed frequency of category `c` in a column. -/
def countCat (col : List Value) (c : String) : ℚ :=
  (((nonNulls col).map valueRepr).count c : ℚ)

/-- Observed frequency vector of a column over an aligned category list. -/
def freqVec (cats : List String) (col : List Value) : List ℚ :=
  cats.map (countCat col)

/-- One categorical column's test: skipped (`none`) when either side is
empty, otherwise the goodness-of-fit routine applied to the two frequency
vectors aligned over the category union, with
`similar = (pValue > 0.05)`. -/
def evalCategoricalColumn (gof : List ℚ → List ℚ → ℚ × ℚ)
    (real synth : List Value) : Option TestResult :=
  if (nonNulls real).isEmpty ∨ (nonNulls synth).isEmpty then none
  else
    let cats := catUnion real synth
    let r := gof (freqVec cats real) (freqVec cats synth)
    some ⟨r.1, r.2, decide (r.2 > 5 / 100)⟩

/-- One numeric column's test: skipped (`none`) when either side has no
numeric data, otherwise the two-sample routine applied to the raw numeric
sequences, with `similar = (pValue > 0.05)`. -/
def evalNumericColumn (ks : List ℚ → List ℚ → ℚ × ℚ)
    (real synth : List Value) : Option TestResult :=
  if (numericVals real).isEmpty ∨ (numericVals synth).isEmpty then none
  else
    let r := ks (numericVals real) (numericVals synth)
    some ⟨r.1, r.2, decide (r.2 > 5 / 100)⟩

/-- Positions of the numeric, non-identifier columns of a schema. -/
def numericIdx (schema : List ColumnInfo) : List Nat :=
  (List.range schema.length).filter fun j =>
    decide (((schema.getD j default).kind = .integer ∨
        (schema.getD j default).kind = .float) ∧
      (schema.getD j default).isIdentifier = false)

/-- Pearson correlation matrix of a list of numeric columns, built from the
pairwise correlation routine. -/
def corrMatrix (pearson : List ℚ → List ℚ → ℚ)
    (cols : List (List ℚ)) : List (List ℚ) :=
  cols.map fun x => cols.map fun y => pearson x y

/-- Mean of squared element-wise differences between two matrices. -/
def matMSE (A B : List (List ℚ)) : ℚ :=
  let d := (A.flatten.zip B.flatten).map fun p => (p.1 - p.2) ^ 2
  d.sum / (d.length : ℚ)

/-- The note attached to the correlation score when it is skipped. -/
def corrSkippedNote : String := "correlation skipped: fewer than 2 numeric columns"

/-- The correlation-preservation score: skipped with a note when fewer than
two numeric non-identifier columns exist, else the MSE between the two
correlation matrices. -/
def correlationPart (pearson : List ℚ → List ℚ → ℚ)
    (schema : List ColumnInfo) (realT synthT : ColTable) :
    ℚ × Option String :=
  let idx := numericIdx schema
  if idx.length < 2 then (0, some corrSkippedNote)
  else
    (matMSE
      (corrMatrix pearson (idx.map fun j => numericVals (realT.getD j [])))
      (corrMatrix pearson (idx.map fun j => numericVals (synthT.getD j []))),
     none)

/-- Result of a statistical similarity evaluation: per-column test entries
(`none` marks a skipped column), the correlation score and its skip note. -/
structure EvaluationResult where
  numericTests : List (String × Option TestResult)
  categoricalTests : List (String × Option TestResult)
  correlationMSE : ℚ
  correlationNote : Option String
  deriving Repr

/-- Statistical similarity evaluation.  Modelled from the spec: §4.4 —
columns are iterated in schema order, identifier columns excluded; skipped
sub-tests are embedded as `none` entries rather than failing the whole
evaluation; the result carries `correlationMSE` and its skip note. -/
def evaluateStatistical (gof ks : List ℚ → List ℚ → ℚ × ℚ)
    (pearson : List ℚ → List ℚ → ℚ) (schema : List ColumnInfo)
    (realT synthT : ColTable) : EvaluationResult :=
  { numericTests := (List.range schema.length).filterMap fun j =>
      if ((schema.getD j default).kind = .integer ∨
            (schema.getD j default).kind = .float) ∧
          (schema.getD j default).isIdentifier = false then
        some ((schema.getD j default).name,
          evalNumericColumn ks (realT.getD j []) (synthT.getD j []))
      else none
    categoricalTests := (List.range schema.length).filterMap fun j =>
      if (schema.getD j default).kind = .categorical ∧
          (schema.getD j default).isIdentifier = false then
        some ((schema.getD j default).name,
          evalCategoricalColumn gof (realT.getD j []) (synthT.getD j []))
      else none
    correlationMSE := (correlationPart pearson schema realT synthT).1
    correlationNote := (correlationPart pearson schema realT synthT).2 }

/-- C6: for a categorical non-identifier column, the evaluation always
carries an entry for the column (skips are embedded, the evaluation never
fails); the column test is skipped (`none`) when either side is empty;
otherwise the goodness-of-fit routine is applied to frequency vectors
aligned over the union of both observed category sets — a category observed
on either side is never dropped, a category missing on one side has
observed frequency 0 there — and `similar = (pValue > 0.05)`. -/
theorem statistical_categorical_handling
    (gof ks : List ℚ → List ℚ → ℚ × ℚ) (pearson : List ℚ → List ℚ → ℚ)
    (schema : List ColumnInfo) (realT synthT : ColTable) (j : Nat)
    (hj : j < schema.length)
    (hcat : (schema.getD j default).kind = .categorical)
    (hid : (schema.getD j default).isIdentifier = false) :
    (((schema.getD j default).name,
        evalCategoricalColumn gof (realT.getD j []) (synthT.getD j []))
      ∈ (evaluateStatistical gof ks pearson schema realT
          synthT).categoricalTests) ∧
    ((nonNulls (realT.getD j [])).isEmpty = true ∨
        (nonNulls (synthT.getD j [])).isEmpty = true →
      evalCategoricalColumn gof (realT.getD j []) (synthT.getD j [])
        = none) ∧
    (¬((nonNulls (realT.getD j [])).isEmpty = true ∨
        (nonNulls (synthT.getD j [])).isEmpty = true) →
      ∃ res, evalCategoricalColumn gof (realT.getD j []) (synthT.getD j [])
          = some res ∧
        res.statistic
          = (gof
              (freqVec (catUnion (realT.getD j []) (synthT.getD j []))
                (realT.getD j []))
              (freqVec (catUnion (realT.getD j []) (synthT.getD j []))
                (synthT.getD j []))).1 ∧
        res.pValue
          = (gof
              (freqVec (catUnion (realT.getD j []) (synthT.getD j []))
                (realT.getD j []))
              (freqVec (catUnion (realT.getD j []) (synthT.getD j []))
                (synthT.getD j []))).2 ∧
        res.similar = decide (res.pValue > 5 / 100)) ∧
    (∀ c, (c ∈ observedCats (realT.getD j []) ∨
        c ∈ observedCats (synthT.getD j []))
      ↔ c ∈ catUnion (realT.getD j []) (synthT.getD j [])) ∧
    (∀ c, c ∈ catUnion (realT.getD j []) (synthT.getD j []) →
      (c ∉ observedCats (realT.getD j []) →
        countCat (realT.getD j []) c = 0) ∧
      (c ∉ observedCats (synthT.getD j []) →
        countCat (synthT.getD j []) c = 0)) ∧
    (∀ col : List Value,
      freqVec (catUnion (realT.getD j []) (synthT.getD j [])) col
        = (catUnion (realT.getD j []) (synthT.getD j [])).map
            (countCat col)) := by
  refine ⟨?_, ?_, ?_, ?_, ?_, fun col => rfl⟩
  · apply List.mem_filterMap.mpr
    exact ⟨j, List.mem_range.mpr hj, by rw [if_pos ⟨hcat, hid⟩]⟩
  · intro h
    unfold evalCategoricalColumn
    rw [if_pos h]
  · intro h
    unfold evalCategoricalColumn
    rw [if_neg h]
    exact ⟨_, rfl, rfl, rfl, rfl⟩
  · intro c
    simp [catUnion, List.mem_dedup, List.mem_append]
  · intro c _
    constructor
    · intro hc
      have hnm : c ∉ ((nonNulls (realT.getD j [])).map valueRepr) := by
        intro hmem
        exact hc (List.mem_dedup.mpr hmem)
      unfold countCat
      rw [List.count_eq_zero.mpr hnm]
      simp
    · intro hc
      have hnm : c ∉ ((nonNulls (synthT.getD j [])).map valueRepr) := by
        intro hmem
        exact hc (List.mem_dedup.mpr hmem)
      unfold countCat
      rw [List.count_eq_zero.mpr hnm]
      simp

/-- A concrete goodness-of-fit stand-in used only to instantiate the
evaluator in witnesses. -/
def gofTest : List ℚ → List ℚ → ℚ × ℚ := fun o e =>
  (((o.zip e).map fun p => (p.1 - p.2) ^ 2).sum, 1)

/-- A concrete two-sample stand-in used only to instantiate the evaluator
in witnesses. -/
def ksTest : List ℚ → List ℚ → ℚ × ℚ := fun _ _ => (0, 1)

/-- A concrete correlation stand-in used only to instantiate the evaluator
in witnesses. -/
def pearsonTest : List ℚ → List ℚ → ℚ := fun _ _ => 1

/-- A one-column categorical schema for witnesses. -/
def catSchema : List ColumnInfo :=
  [{ name := "gender", kind := .categorical, categories := ["F", "M"] }]

/-- A one-column real table for witnesses. -/
def realCol : ColTable := [[.str "M", .str "M", .str "F"]]

/-- A one-column synthetic table for witnesses. -/
def synthCol : ColTable := [[.str "M", .str "F", .str "F"]]

/-- A one-column table whose only column is empty, for witnesses. -/
def emptyColTable : ColTable := [[]]

theorem statistical_categorical_handling_witness :
    (0 < catSchema.length ∧
      (catSchema.getD 0 default).kind = .categorical ∧
      (catSchema.getD 0 default).isIdentifier = false ∧
      ¬((nonNulls (realCol.getD 0 [])).isEmpty = true ∨
        (nonNulls (synthCol.getD 0 [])).isEmpty = true)) ∧
    (((catSchema.getD 0 default).name,
        evalCategoricalColumn gofTest (realCol.getD 0 [])
          (synthCol.getD 0 []))
      ∈ (evaluateStatistical gofTest ksTest pearsonTest catSchema realCol
          synthCol).categoricalTests) ∧
    (∃ res, evalCategoricalColumn gofTest (realCol.getD 0 [])
        (synthCol.getD 0 []) = some res ∧
      res.statistic
        = (gofTest
            (freqVec (catUnion (realCol.getD 0 []) (synthCol.getD 0 []))
              (realCol.getD 0 []))
            (freqVec (catUnion (realCol.getD 0 []) (synthCol.getD 0 []))
              (synthCol.getD 0 []))).1 ∧
      res.pValue
        = (gofTest
            (freqVec (catUnion (realCol.getD 0 []) (synthCol.getD 0 []))
              (realCol.getD 0 []))
            (freqVec (catUnion (realCol.getD 0 []) (synthCol.getD 0 []))
              (synthCol.getD 0 []))).2 ∧
      res.similar = decide (res.pValue > 5 / 100)) ∧
    evalCategoricalColumn gofTest (emptyColTable.getD 0 [])
      (synthCol.getD 0 []) = none :=
  ⟨⟨by decide, by decide, by decide, by decide⟩,
   (statistical_categorical_handling gofTest ksTest pearsonTest catSchema
      realCol synthCol 0 (by decide) (by decide) (by decide)).1,
   (statistical_categorical_handling gofTest ksTest pearsonTest catSchema
      realCol synthCol 0 (by decide) (by decide) (by decide)).2.2.1
     (by decide),
   (statistical_categorical_handling gofTest ksTest pearsonTest catSchema
      emptyColTable synthCol 0 (by decide) (by decide) (by decide)).2.1
     (Or.inl (by decide))⟩

/-- C7: the evaluation reports `correlationMSE` as the mean of squared
element-wise differences between the two Pearson correlation matrices when
at least two numeric non-identifier columns exist, and reports
`correlationMSE = 0` together with a skip note — rather than failing —
when fewer than two exist. -/
theorem correlation_mse_reporting
    (gof ks : List ℚ → List ℚ → ℚ × ℚ) (pearson : List ℚ → List ℚ → ℚ)
    (schema : List ColumnInfo) (realT synthT : ColTable) :
    (2 ≤ (numericIdx schema).length →
      (evaluateStatistical gof ks pearson schema realT
          synthT).correlationMSE
        = matMSE
            (corrMatrix pearson ((numericIdx schema).map fun j =>
              numericVals (realT.getD j [])))
            (corrMatrix pearson ((numericIdx schema).map fun j =>
              numericVals (synthT.getD j []))) ∧
      (evaluateStatistical gof ks pearson schema realT
          synthT).correlationNote = none) ∧
    ((numericIdx schema).length < 2 →
      (evaluateStatistical gof ks pearson schema realT
          synthT).correlationMSE = 0 ∧
      (evaluateStatistical gof ks pearson schema realT
          synthT).correlationNote = some corrSkippedNote) := by
  constructor
  · intro h
    unfold evaluateStatistical correlationPart
    rw [if_neg (by omega)]
    exact ⟨rfl, rfl⟩
  · intro h
    unfold evaluateStatistical correlationPart
    rw [if_pos h]
    exact ⟨rfl, rfl⟩

/-- A two-numeric-column schema for witnesses. -/
def numSchema : List ColumnInfo :=
  [{ name := "age", kind := .integer, min := 18, max := 90 },
   { name := "income", kind := .float, min := 30000, max := 120000 }]

/-- A two-numeric-column real table for witnesses. -/
def realNumT : ColTable := [[.num 20, .num 30], [.num 40000, .num 50000]]

/-- A two-numeric-column synthetic table for witnesses. -/
def synthNumT : ColTable := [[.num 25, .num 35], [.num 45000, .num 55000]]

theorem correlation_mse_reporting_witness :
    (2 ≤ (numericIdx numSchema).length ∧
      (numericIdx catSchema).length < 2) ∧
    ((evaluateStatistical gofTest ksTest pearsonTest numSchema realNumT
        synthNumT).correlationMSE
      = matMSE
          (corrMatrix pearsonTest ((numericIdx numSchema).map fun j =>
            numericVals (realNumT.getD j [])))
          (corrMatrix pearsonTest ((numericIdx numSchema).map fun j =>
            numericVals (synthNumT.getD j []))) ∧
      (evaluateStatistical gofTest ksTest pearsonTest numSchema realNumT
        synthNumT).correlationNote = none) ∧
    ((evaluateStatistical gofTest ksTest pearsonTest catSchema realCol
        synthCol).correlationMSE = 0 ∧
      (evaluateStatistical gofTest ksTest pearsonTest catSchema realCol
        synthCol).correlationNote = some corrSkippedNote) :=
  ⟨⟨by decide, by decide⟩,
   (correlation_mse_reporting gofTest ksTest pearsonTest numSchema realNumT
      synthNumT).1 (by decide),
   (correlation_mse_reporting gofTest ksTest pearsonTest catSchema realCol
      synthCol).2 (by decide)⟩

/-! ## /generate request validation (HTTP layer) -/

/-- A `/generate` request as received by the HTTP layer: requested row
count, whether a file upload is attached, an optional server-side file
path, an optional declared schema. -/
structure GenerateRequest where
  nRows : Int
  hasFile : Bool
  filePath : Option String
  dataSchema : Option DeclSchema

/-- Which generation pipeline a valid request is routed to. -/
inductive GenerateMode where
  | dataDriven
  | schemaDriven
  deriving DecidableEq, Repr

/-- Modelled from the spec: the request validation and mode dispatch of the
`/generate` endpoint, whose backend implementation is absent from the
source tree; its behavior is fixed by the in-repo API documentation
(API_TEST_CASES.md TEST 15–18 and README.md "Schema-Only Mode").  Field
validation bounds `n_rows` to 1..100000 and rejects out-of-range values
with a 422 validation error before the handler (and hence any generation)
runs; a request supplying both a schema and a file or file path is rejected
400 ("If both schema and file are provided, the API returns 400"); a
request supplying neither is rejected 400 ("Must provide either 'file'
upload or 'file_path'"). -/
def generateDispatch (req : GenerateRequest) :
    Except (Nat × String) GenerateMode :=
  if req.nRows > 100000 then
    .error (422, "Input should be less than or equal to 100000")
  else if req.nRows < 1 then
    .error (422, "Input should be greater than or equal to 1")
  else if req.dataSchema.isSome ∧ (req.hasFile ∨ req.filePath.isSome) then
    .error (400, "Provide either schema or file, not both")
  else if req.dataSchema.isSome then .ok .schemaDriven
  else if req.hasFile ∨ req.filePath.isSome then .ok .dataDriven
  else .error (400, "Must provide either 'file' upload or 'file_path'")

/-- C9: every `/generate` request with `n_rows > 100000` is rejected with a
422 validation error before any generation occurs — no pipeline is ever
selected — an upper bound the core spec itself never states. -/
theorem nrows_upper_bound_rejected (req : GenerateRequest)
    (h : req.nRows > 100000) :
    generateDispatch req
      = .error (422, "Input should be less than or equal to 100000") := by
  unfold generateDispatch
  rw [if_pos h]

theorem nrows_upper_bound_rejected_witness :
    ((200000 : Int) > 100000) ∧
      generateDispatch ⟨200000, false, some "input.csv", none⟩
        = .error (422, "Input should be less than or equal to 100000") :=
  ⟨by norm_num,
   nrows_upper_bound_rejected ⟨200000, false, some "input.csv", none⟩
     (by norm_num)⟩

/-- C10: a `/generate` request that passes field validation and supplies
both a declared schema and a data file (or file path) is rejected with a
400 error, keeping the schema-driven and data-driven modes mutually
exclusive within one request. -/
theorem schema_and_file_rejected (req : GenerateRequest)
    (hlo : 1 ≤ req.nRows) (hhi : req.nRows ≤ 100000)
    (hs : req.dataSchema.isSome = true)
    (hf : req.hasFile = true ∨ req.filePath.isSome = true) :
    ∃ msg, generateDispatch req = .error (400, msg) := by
  refine ⟨"Provide either schema or file, not both", ?_⟩
  unfold generateDispatch
  rw [if_neg (by omega), if_neg (by omega), if_pos ⟨hs, hf⟩]

theorem schema_and_file_rejected_witness :
    ((1 : Int) ≤ 50 ∧ (50 : Int) ≤ 100000 ∧
      (some badSchema).isSome = true ∧
      ((true = true) ∨ (Option.isSome (α := String) none) = true)) ∧
    ∃ msg, generateDispatch ⟨50, true, none, some badSchema⟩
      = .error (400, msg) :=
  ⟨⟨by norm_num, by norm_num, rfl, Or.inl rfl⟩,
   schema_and_file_rejected ⟨50, true, none, some badSchema⟩
     (by norm_num) (by norm_num) rfl (Or.inl rfl)⟩

end SynthData
